/-
Verification development for the l3embedding sampling pipeline
(`l3embedding/train.py`).

Shallow embedding conventions:
* Python strings are modelled as `List Char`; `str.split(c)` and
  `c.join(...)` become the structurally recursive `pySplit` / `pyJoin`.
* NumPy arrays are modelled as nested lists of rationals (`ℚ`), so all
  arithmetic is exact.
* Randomness is modelled by passing each draw explicitly: a
  `random.random()` value becomes a rational parameter `u` (intended range
  `[0, 1)`), `random.randrange(n)` becomes a natural-number parameter with
  the side condition `< n`, and `random.uniform(a, b)` is expanded to its
  definition `a + (b - a) * u`.
* Fallible operations return `Except String _` / `Option _`.
-/
import Mathlib

set_option maxHeartbeats 1000000
set_option maxRecDepth 10000

/-! ## Python string primitives -/

/-- Model of Python `s.split(c)` for a one-character separator: splits at
every occurrence of `c`, keeping empty segments (so the result is always
nonempty). -/
def pySplit (c : Char) : List Char → List (List Char)
  | [] => [[]]
  | x :: xs =>
    match pySplit c xs with
    | [] => [[]]
    | y :: ys => if x = c then [] :: y :: ys else (x :: y) :: ys

/-- Model of Python `c.join(segs)` for a one-character separator. -/
def pyJoin (c : Char) : List (List Char) → List Char
  | [] => []
  | [x] => x
  | x :: xs => x ++ c :: pyJoin c xs

theorem pySplit_ne_nil (c : Char) (l : List Char) : pySplit c l ≠ [] := by
  cases l with
  | nil => simp [pySplit]
  | cons x xs =>
    simp only [pySplit]
    cases h : pySplit c xs with
    | nil => simp
    | cons y ys =>
      by_cases hx : x = c <;> simp [hx]

/-- If `c` does not occur in `x`, splitting `x ++ c :: rest` peels off `x`. -/
theorem pySplit_append_cons (c : Char) (x rest : List Char) (hx : c ∉ x) :
    pySplit c (x ++ c :: rest) = x :: pySplit c rest := by
  induction x with
  | nil =>
    simp only [List.nil_append, pySplit]
    cases h : pySplit c rest with
    | nil => exact absurd h (pySplit_ne_nil c rest)
    | cons y ys => simp
  | cons a x ih =>
    have hac : a ≠ c := by
      intro h; exact hx (by simp [h])
    have hcx : c ∉ x := fun h => hx (List.mem_cons_of_mem _ h)
    simp only [List.cons_append, pySplit, List.append_eq]
    rw [ih hcx]
    simp [hac]

/-- Splitting a separator-free string yields the single segment. -/
theorem pySplit_no_sep (c : Char) (x : List Char) (hx : c ∉ x) :
    pySplit c x = [x] := by
  induction x with
  | nil => simp [pySplit]
  | cons a x ih =>
    have hac : a ≠ c := by
      intro h; exact hx (by simp [h])
    have hcx : c ∉ x := fun h => hx (List.mem_cons_of_mem _ h)
    simp [pySplit, ih hcx, hac]

/-- `pySplit` inverts `pyJoin` when no segment contains the separator. -/
theorem pySplit_pyJoin (c : Char) (segs : List (List Char))
    (hne : segs ≠ []) (hsep : ∀ s ∈ segs, c ∉ s) :
    pySplit c (pyJoin c segs) = segs := by
  induction segs with
  | nil => exact absurd rfl hne
  | cons x xs ih =>
    cases xs with
    | nil =>
      simp only [pyJoin]
      exact pySplit_no_sep c x (hsep x (by simp))
    | cons y ys =>
      have hx : c ∉ x := hsep x (by simp)
      have : pyJoin c (x :: y :: ys) = x ++ c :: pyJoin c (y :: ys) := rfl
      rw [this, pySplit_append_cons c x _ hx,
        ih (by simp) (fun s hs => hsep s (List.mem_cons_of_mem _ hs))]

/-! ## `video_to_audio` (train.py lines 160–173) -/

/-- Embedding of `video_to_audio`:
```
*path, _, name = video_file.split('/')
name = name.split(".")[0] + ".flac"
return "/".join(path + ["audio", name])
``` -/
def video_to_audio (video_file : List Char) : List Char :=
  let parts := pySplit '/' video_file
  let path := parts.dropLast.dropLast
  let name := parts.getLastD []
  let name2 := (pySplit '.' name).headD [] ++ ('.' :: "flac".toList)
  pyJoin '/' (path ++ ["audio".toList, name2])

/-! ## `sample_one_second` (train.py lines 176–215) -/

/-- Augmentation-parameter record returned by `sample_one_second`
(`{"gain": gain}` when augmenting, `{}` otherwise). -/
structure AudioAugParams where
  gain : Option ℚ
deriving DecidableEq

/-- Peak absolute value of one row (one audio frame over its channels). -/
def rowPeak (row : List ℚ) : ℚ :=
  row.foldr (fun x m => max |x| m) 0

/-- Embedding of `np.abs(audio_data).max()` over a 2-d array
(list of frames, each a list of channel values); `0` on an empty array. -/
def peakAbs (a : List (List ℚ)) : ℚ :=
  a.foldr (fun row m => max (rowPeak row) m) 0

/-- Embedding of `sample_one_second(audio_data, sampling_frequency, augment)`.

The audio is a list of frames (rows), each a list of channel values
(`soundfile` reads with `always_2d=True`).  `start_draw` models the value of
`random.randrange(len(audio_data) - sampling_frequency)` (only used when the
track is longer than one second) and `u` models the unit uniform draw
underlying `random.uniform(-0.1, max_gain) = -0.1 + (max_gain - (-0.1)) * u`.
Returns the one-second window, the start time in seconds, and the
augmentation parameters. -/
def sample_one_second (audio_data : List (List ℚ)) (sampling_frequency : ℕ)
    (augment : Bool) (start_draw : ℕ) (u : ℚ) :
    List (List ℚ) × ℚ × AudioAugParams :=
  let start := if audio_data.length > sampling_frequency then start_draw else 0
  let window := (audio_data.drop start).take sampling_frequency
  let nc := (audio_data.headD []).length
  let padded := if window.length ≠ sampling_frequency then
      window ++ List.replicate (sampling_frequency - window.length) (List.replicate nc 0)
    else window
  if augment then
    let peak := peakAbs padded
    let max_gain := if peak ≠ 0 then min (1/10) (1/peak - 1) else 1/10
    let gain := 1 + (-(1/10) + (max_gain - -(1/10)) * u)
    (padded.map (List.map (fun x => x * gain)), (start : ℚ) / sampling_frequency,
      ⟨some gain⟩)
  else
    (padded, (start : ℚ) / sampling_frequency, ⟨none⟩)

/-! ## Discovery: filenames, metadata ids, filters (train.py lines 33–157) -/

/-- Modelled from the spec: `os.path.splitext` (Python stdlib, external to the
repository) — strips the last `'.'`-extension from a basename. -/
def splitextRoot (base : List Char) : List Char :=
  let segs := pySplit '.' base
  if segs.length ≤ 1 then base else pyJoin '.' segs.dropLast

/-- Embedding of `get_filename`: basename of the path without extension
(`os.path.splitext(os.path.basename(path))[0]`). -/
def get_filename (path : List Char) : List Char :=
  splitextRoot ((pySplit '/' path).getLastD [])

/-- Embedding of `get_ytid_from_filename`: drop the last two
`'_'`-delimited segments (`filename[:second_us_idx]` with the two
`rindex('_')` calls).  Faithful whenever the filename contains at least two
underscores; with fewer, Python raises `ValueError`. -/
def get_ytid_from_filename (filename : List Char) : List Char :=
  pyJoin '_' ((pySplit '_' filename).dropLast.dropLast)

/-- One row of the filter CSV (`load_filters`): columns
`filter_type, accept_reject, string`. -/
structure FilterRule where
  filter_type : List Char
  accept_reject : List Char
  string : List Char
deriving DecidableEq

/-- Embedding of the per-filename filter loop of `get_file_list`
(train.py lines 131–146):

```
accept = True
for _filter in filters:
    filter_type = _filter["filter_type"]
    filter_accept = _filter["accept_reject"] == "accept"
    string = _filter["string"]
    if filter_type == "ytid":
        match = ytid == string
    elif filter_type == "label":
        match = string.lower() in video_labels
    if match == filter_accept:
        accept = False
```

The second state component models the Python variable `match`, which is
only (re)assigned for `"ytid"`/`"label"` rules and otherwise keeps its
previous value; `none` models it being still unassigned, in which case
Python raises `NameError` at the comparison (returned here as `none`). -/
def filter_accept_loop (ytid : List Char) (video_labels : List (List Char)) :
    List FilterRule → Option Bool → Bool → Option Bool
  | [], _, accept => some accept
  | f :: fs, prevMatch, accept =>
    let m : Option Bool :=
      if f.filter_type = "ytid".toList then some (decide (ytid = f.string))
      else if f.filter_type = "label".toList then
        some (decide (f.string.map Char.toLower ∈ video_labels))
      else prevMatch
    match m with
    | none => none
    | some mv =>
      filter_accept_loop ytid video_labels fs (some mv)
        (if mv = decide (f.accept_reject = "accept".toList) then false else accept)

/-- Match result of a single well-typed rule (`ytid` equality for `"ytid"`
rules, lower-cased label membership for `"label"` rules). -/
def ruleMatch (ytid : List Char) (video_labels : List (List Char))
    (f : FilterRule) : Bool :=
  if f.filter_type = "ytid".toList then decide (ytid = f.string)
  else decide (f.string.map Char.toLower ∈ video_labels)

/-- The rule's configured polarity test `accept_reject == "accept"`. -/
def rulePolarity (f : FilterRule) : Bool :=
  decide (f.accept_reject = "accept".toList)

/-- A rule the loop understands: its `filter_type` is `"ytid"` or `"label"`. -/
def ruleWellTyped (f : FilterRule) : Prop :=
  f.filter_type = "ytid".toList ∨ f.filter_type = "label".toList

instance (f : FilterRule) : Decidable (ruleWellTyped f) := by
  unfold ruleWellTyped; infer_instance

/-- Observable filesystem / loading actions of `get_file_list`, in program
order. -/
inductive FsEvent
  | listdir (dir : List Char)
  | glob (pattern : List Char)
  | load_ontology (path : List Char)
  | load_metadata (path : List Char)
  | load_filters (path : List Char)
deriving DecidableEq

/-- Scan-phase events: directory listing and globbing (as opposed to the
metadata/filter/ontology loading that filtering performs). -/
def FsEvent.isScan : FsEvent → Bool
  | .listdir _ => true
  | .glob _ => true
  | _ => false

/-- Abstraction of the external world read by `get_file_list`: directory
listing, globbing, and the three loaders (`ASOntology`, `load_metadata`,
`load_filters`), each a pure lookup keyed by its path argument.
`metadata` maps a metadata path to an association list
`ytid ↦ positive_labels`; `ontology_name` models
`ASOntology(path).get_node(label_id).name`. -/
structure FileSystem where
  listdir : List Char → List (List Char)
  glob : List Char → List (List Char)
  metadata : List Char → List (List Char × List (List Char))
  filters : List Char → List FilterRule
  ontology_name : List Char → List Char → List Char

/-- Python truthiness of an optional string argument (`if metadata_path and
filter_path`, `if not ontology_path`): `None` and `''` are falsy. -/
def pyTruthy : Option (List Char) → Bool
  | none => false
  | some s => !s.isEmpty

/-- Embedding of `get_file_list(data_dir, metadata_path, filter_path,
ontology_path)` (train.py lines 85–157), returning the ordered trace of
filesystem/loading events together with either the error raised or the
`(audio_files, video_files)` result.

The Python code materialises `valid_filenames` as a `set`; only membership
in it is ever used downstream, so it is modelled as the list of audio
basenames that also occur among the video basenames. -/
def get_file_list (fs : FileSystem) (data_dir : List Char)
    (metadata_path filter_path ontology_path : Option (List Char)) :
    List FsEvent × Except (List Char) (List (List Char) × List (List Char)) :=
  let contents := fs.listdir data_dir
  let direct := decide ("audio".toList ∈ contents) && decide ("video".toList ∈ contents)
  let audio_pat := if direct then data_dir ++ "/audio/*".toList
    else data_dir ++ "/**/audio/*".toList
  let video_pat := if direct then data_dir ++ "/video/*".toList
    else data_dir ++ "/**/video/*".toList
  let audio_files := fs.glob audio_pat
  let video_files := fs.glob video_pat
  let scan_events := [FsEvent.listdir data_dir, FsEvent.glob audio_pat,
    FsEvent.glob video_pat]
  let video_filenames := video_files.map get_filename
  let valid_filenames := (audio_files.map get_filename).filter
    (fun n => decide (n ∈ video_filenames))
  if pyTruthy metadata_path && pyTruthy filter_path then
    if !(pyTruthy ontology_path) then
      (scan_events, .error "Must provide ontology path to filter".toList)
    else
      let op := ontology_path.getD []
      let mp := metadata_path.getD []
      let fp := filter_path.getD []
      let events := scan_events ++ [FsEvent.load_ontology op,
        FsEvent.load_metadata mp, FsEvent.load_filters fp]
      let metadata := fs.metadata mp
      let filters := fs.filters fp
      let filtered : Except (List Char) (List (List Char)) :=
        valid_filenames.foldlM (fun acc filename => do
          let ytid := get_ytid_from_filename filename
          match metadata.lookup ytid with
          | none => Except.error ("KeyError: ".toList ++ ytid)
          | some positive_labels =>
            let video_labels := positive_labels.map
              (fun lid => (fs.ontology_name op lid).map Char.toLower)
            match filter_accept_loop ytid video_labels filters none true with
            | none => Except.error "NameError: match referenced before assignment".toList
            | some accept => pure (if accept then acc ++ [filename] else acc)) []
      (events, filtered.map (fun valid =>
        (audio_files.filter (fun p => decide (get_filename p ∈ valid)),
         video_files.filter (fun p => decide (get_filename p ∈ valid)))))
  else
    (scan_events, .ok
      (audio_files.filter (fun p => decide (get_filename p ∈ valid_filenames)),
       video_files.filter (fun p => decide (get_filename p ∈ valid_filenames))))

/-! ## Video frames: rescaling and cropping (train.py lines 218–292) -/

/-- A video frame: `nx × ny × nc` nested lists of rationals. -/
abbrev VFrame := List (List (List ℚ))

/-- Modelled from the spec: `scipy.misc.imresize` is an external library
call, "treated as library calls returning raw sample/frame arrays"; all the
claims use of it is that it returns an array of the requested target shape,
so the model returns a zero array of that shape. -/
def imresize (_frame : VFrame) (nx ny nc : ℕ) : VFrame :=
  List.replicate nx (List.replicate ny (List.replicate nc 0))

/-- Embedding of `rescale_video(video_data)` (train.py lines 218–240):
reads `num_frames, nx, ny, nc = video_data.shape`, computes
`scaling = 256.0 / min(nx, ny)` and the ceil-rescaled target shape, and
resizes every frame.  (The source's `assert 256 in (new_nx, new_ny)` always
holds in exact arithmetic; see `rescale_video_new_dims`.) -/
def rescale_video (video_data : List VFrame) : List VFrame :=
  let nx := (video_data.headD []).length
  let ny := ((video_data.headD []).headD []).length
  let nc := (((video_data.headD []).headD []).headD []).length
  let scaling : ℚ := 256 / (min nx ny : ℕ)
  let new_nx := (⌈scaling * nx⌉).toNat
  let new_ny := (⌈scaling * ny⌉).toNat
  video_data.map (fun f => imresize f new_nx new_ny nc)

/-- Embedding of `rescale_frame(frame_data)` (train.py lines 243–264).  The
source body passes the undefined name `frame` (not its parameter
`frame_data`) to `imresize`, so every call raises `NameError`. -/
def rescale_frame (_frame_data : VFrame) : Except (List Char) VFrame :=
  .error "NameError: name given to imresize is not defined".toList

/-- The crop bounding box recorded by `sample_cropped_frame`. -/
structure BBox where
  start_x : ℕ
  start_y : ℕ
  end_x : ℕ
  end_y : ℕ
deriving DecidableEq

/-- Embedding of `sample_cropped_frame(frame_data, rescale)` (train.py lines
267–292).  `sx`/`sy` model `random.randrange(nx - 224)` and
`random.randrange(ny - 224)` (side conditions `sx < nx - 224`,
`sy < ny - 224` on callers). -/
def sample_cropped_frame (frame_data : VFrame) (rescale : Bool)
    (sx sy : ℕ) : Except (List Char) (VFrame × BBox) := do
  let fd ← if rescale then rescale_frame frame_data else .ok frame_data
  let bbox : BBox := ⟨sx, sy, sx + 224, sy + 224⟩
  .ok (((fd.drop sx).take 224).map (fun row => (row.drop sy).take 224), bbox)

/-- The frame `f` is a rectangular `a × b × c` array. -/
def frameShapeIs (f : VFrame) (a b c : ℕ) : Prop :=
  f.length = a ∧ ∀ row ∈ f, row.length = b ∧ ∀ px ∈ row, px.length = c

/-! ## Frame augmentation (train.py lines 295–372) -/

/-- Modelled from the spec: `horiz_flip` from the repository's image module
(`from .image import *`, not under src/) — horizontal flip of the frame,
i.e. reversal along the second (width) axis. -/
def horiz_flip (frame_data : VFrame) : VFrame :=
  frame_data.map List.reverse

/-- Modelled from the spec: `adjust_brightness` from the repository's image
module (not under src/) — "brightness jitter (additive delta)": adds the
delta to every channel value. -/
def adjust_brightness (frame_data : VFrame) (delta : ℚ) : VFrame :=
  frame_data.map (List.map (List.map (fun x => x + delta)))

/-- Modelled from the spec: `adjust_saturation` from the repository's image
module (not under src/) — "saturation jitter (multiplicative factor)":
scales every channel value by the factor. -/
def adjust_saturation (frame_data : VFrame) (factor : ℚ) : VFrame :=
  frame_data.map (List.map (List.map (fun x => x * factor)))

/-- The augmentation-parameter record built by `sample_one_frame`:
`{"bounding_box": bbox}` plus, when augmenting,
`horizontal_flip`, `saturation_factor` and `brightness_delta`. -/
structure VideoAugParams where
  bounding_box : BBox
  horizontal_flip : Option Bool
  saturation_factor : Option ℚ
  brightness_delta : Option ℚ
deriving DecidableEq

/-- Embedding of `sample_one_frame(video_data, start, fps, augment, rescale)`
(train.py lines 295–372).

Randomness is passed explicitly: `frame_draw` models
`random.randrange(duration)` (or `random.randrange(num_frames)` when
`start is None`), `sx`/`sy` the two crop draws, `flip_u`/`order_u` the
`random.random()` coin draws (`< 0.5` tests), and `sat_u`/`bright_u` the
unit draws behind `saturation_factor = random.random() + 0.5` and
`brightness_delta = (2*random.random() - 1) * 32/255`.

`start_frame = int(start * fps)` becomes `⌊start * fps⌋.toNat` (the start
time is nonnegative), and `duration = min(fps, num_frames - start_frame)`
uses truncated subtraction, which selects the same branches as Python's
possibly-negative difference. -/
def sample_one_frame (video_data : List VFrame) (start : Option ℚ) (fps : ℕ)
    (augment rescale : Bool) (frame_draw sx sy : ℕ)
    (flip_u order_u sat_u bright_u : ℚ) :
    Except (List Char) (VFrame × ℚ × VideoAugParams) := do
  let num_frames := video_data.length
  let frame : ℕ :=
    match start with
    | some st =>
      let start_frame := (⌊st * fps⌋).toNat
      let duration := min fps (num_frames - start_frame)
      if duration > 0 then start_frame + frame_draw
      else min start_frame (num_frames - 1)
    | none => frame_draw
  let frame_data := video_data.getD frame []
  let (cropped, bbox) ← sample_cropped_frame frame_data rescale sx sy
  let base : VideoAugParams := ⟨bbox, none, none, none⟩
  if augment then
    let (frame_data1, hflip) :=
      if flip_u < 1/2 then (horiz_flip cropped, true) else (cropped, false)
    let saturation_factor := sat_u + 1/2
    let brightness_delta := (2 * bright_u - 1) * (32 / 255)
    let frame_data2 :=
      if order_u < 1/2 then
        adjust_brightness (adjust_saturation frame_data1 saturation_factor)
          brightness_delta
      else
        adjust_saturation (adjust_brightness frame_data1 brightness_delta)
          saturation_factor
    .ok (frame_data2, (frame : ℚ) / fps,
      ⟨bbox, some hflip, some saturation_factor, some brightness_delta⟩)
  else
    .ok (cropped, (frame : ℚ) / fps, base)

/-! ## The `sampler` generator (train.py lines 375–465) -/

/-- Modelled from the spec: `skimage.img_as_float32` is an external library
conversion to float32 in `[0, 1]`; on the exact rational model of
already-decoded data it is the identity. -/
def img_as_float32 (video_data : List VFrame) : List VFrame := video_data

/-- The explicit per-draw randomness consumed by one iteration of the
`sampler` loop. -/
structure DrawRand where
  video_u : ℚ
  audio_u : ℚ
  audio_start_draw : ℕ
  audio_gain_u : ℚ
  frame_draw : ℕ
  crop_sx : ℕ
  crop_sy : ℕ
  flip_u : ℚ
  order_u : ℚ
  sat_u : ℚ
  bright_u : ℚ

/-- The state owned by one running `sampler` stream after the four decodes
succeed: both file names, both decoded (rescaled) videos, both decoded
audio tracks, and the sampling frequency (the variable is assigned by both
`sf.read` calls, so it ends up holding the second file's rate). -/
structure SamplerState where
  video_file_1 : List Char
  video_file_2 : List Char
  audio_file_1 : List Char
  audio_file_2 : List Char
  video_data_1 : List VFrame
  video_data_2 : List VFrame
  audio_data_1 : List (List ℚ)
  audio_data_2 : List (List ℚ)
  sampling_frequency : ℕ

/-- `label = int(video_choice != audio_choice)` (train.py line 444). -/
def samplerLabel (video_choice audio_choice : Bool) : ℤ :=
  if video_choice ≠ audio_choice then 1 else 0

/-- The emitted one-hot label `np.array([label, 1 - label])`
(train.py line 457). -/
def samplerLabelOneHot (video_choice audio_choice : Bool) : List ℤ :=
  [samplerLabel video_choice audio_choice, 1 - samplerLabel video_choice audio_choice]

/-- One yielded sample dictionary (train.py lines 454–464). -/
structure Sample where
  video : VFrame
  audio : List ℚ
  label : List ℤ
  audio_file : List Char
  video_file : List Char
  audio_start : ℚ
  video_start : ℚ
  audio_augment_params : AudioAugParams
  video_augment_params : VideoAugParams

/-- Embedding of the `sampler` initialisation (train.py lines 388–423): the
two audio paths are derived with `video_to_audio`, then the two videos and
the two audio files are decoded in that order; the first failure logs a
warning and raises `StopIteration` — modelled as `Except.error` carrying the
warning message — so the stream terminates before yielding anything.
`vread` models `skvideo.io.vread` and `sfread` models `soundfile.read`
(`none` = decode failure). -/
def samplerInit (video_file_1 video_file_2 : List Char)
    (vread : List Char → Option (List VFrame))
    (sfread : List Char → Option (List (List ℚ) × ℕ)) :
    Except (List Char) SamplerState :=
  let audio_file_1 := video_to_audio video_file_1
  let audio_file_2 := video_to_audio video_file_2
  match vread video_file_1 with
  | none => .error "Could not open video file 1; Skipping...".toList
  | some v1 =>
    match vread video_file_2 with
    | none => .error "Could not open video file 2; Skipping...".toList
    | some v2 =>
      match sfread audio_file_1 with
      | none => .error "Could not open audio file 1; Skipping...".toList
      | some (a1, _sf1) =>
        match sfread audio_file_2 with
        | none => .error "Could not open audio file 2; Skipping...".toList
        | some (a2, sf2) =>
          .ok ⟨video_file_1, video_file_2, audio_file_1, audio_file_2,
            img_as_float32 (rescale_video v1), img_as_float32 (rescale_video v2),
            a1, a2, sf2⟩

/-- `np.mean(axis=-1)` over one audio frame (average over channels). -/
def rowMean (row : List ℚ) : ℚ := row.sum / row.length

/-- Embedding of one iteration of the `sampler` loop (train.py lines
425–465): flip the two source-choice coins, select audio and video data,
compute the label, sample one second of audio and one cropped frame
(with `rescale=False` and the default `fps=30`), collapse the audio to
mono, and build the sample dictionary. -/
def samplerDraw (st : SamplerState) (augment : Bool) (d : DrawRand) :
    Except (List Char) Sample := do
  let video_choice := decide (d.video_u < (1/2 : ℚ))
  let audio_choice := decide (d.audio_u < (1/2 : ℚ))
  let (audio_file, audio_data) :=
    if audio_choice then (st.audio_file_1, st.audio_data_1)
    else (st.audio_file_2, st.audio_data_2)
  let (video_file, video_data) :=
    if video_choice then (st.video_file_1, st.video_data_1)
    else (st.video_file_2, st.video_data_2)
  let label := samplerLabel video_choice audio_choice
  let (sample_audio_data, audio_start, audio_aug_params) :=
    sample_one_second audio_data st.sampling_frequency augment
      d.audio_start_draw d.audio_gain_u
  let (sample_video_data, video_start, video_aug_params) ←
    sample_one_frame video_data (some audio_start) 30 augment false
      d.frame_draw d.crop_sx d.crop_sy d.flip_u d.order_u d.sat_u d.bright_u
  let mono := sample_audio_data.map rowMean
  .ok ⟨sample_video_data, mono, [label, 1 - label], audio_file, video_file,
    audio_start, video_start, audio_aug_params, video_aug_params⟩

/-- The first `fuel` elements of the stream produced by one `sampler`
invocation: nothing at all when any decode fails, otherwise one sample per
draw. -/
def samplerSamples (video_file_1 video_file_2 : List Char)
    (vread : List Char → Option (List VFrame))
    (sfread : List Char → Option (List (List ℚ) × ℕ))
    (augment : Bool) (draws : ℕ → DrawRand) (fuel : ℕ) :
    List (Except (List Char) Sample) :=
  match samplerInit video_file_1 video_file_2 vread sfread with
  | .error _ => []
  | .ok st => (List.range fuel).map (fun i => samplerDraw st augment (draws i))

/-- Modelled from the spec: the Stream Multiplexer (`pescador.Mux`, an
external streaming primitive that the spec specifies only as an interface,
§4.3): it interleaves the samples of its streams; a stream that terminated
without yielding (decode failure) contributes zero samples and the
multiplexed sequence simply continues with the remaining/replacement
streams — a failing stream is never fatal to the pipeline. -/
def muxStreams {α : Type} (streams : List (List α)) : List α := streams.flatten

/-! ## `data_generator` seed construction (train.py lines 489–503) -/

/-- Embedding of the distractor-selection loop
(train.py lines 493–496):

```
video_file_2 = video_file_1
while video_file_2 == video_file_1:
    video_file_2 = random.choice(video_files)
```

`pick i` models the index drawn by the `i`-th `random.choice(video_files)`
call (side condition `pick i < video_files.length`); `fuel` bounds the
number of iterations observed, with `none` meaning the loop has not
terminated within `fuel` iterations. -/
def pickDistractor (video_files : List (List Char)) (video_file_1 : List Char)
    (pick : ℕ → ℕ) : ℕ → ℕ → Option (List Char)
  | _, 0 => none
  | i, fuel+1 =>
    let video_file_2 := video_files.getD (pick i) []
    if video_file_2 = video_file_1 then
      pickDistractor video_files video_file_1 pick (i+1) fuel
    else some video_file_2

/-- The `for _ in range(num_distractors)` loop body for one anchor: draws
`j` distractors, propagating non-termination of any selection loop. -/
def seedsForAnchor (video_files : List (List Char)) (video_file_1 : List Char)
    (pick2 : ℕ → ℕ → ℕ) (fuel : ℕ) :
    ℕ → Option (List (List Char × List Char))
  | 0 => some []
  | j + 1 => do
    let v2 ← pickDistractor video_files video_file_1 (pick2 j) 0 fuel
    let rest ← seedsForAnchor video_files video_file_1 pick2 fuel j
    pure ((video_file_1, v2) :: rest)

/-- Embedding of the seed-construction phase of `data_generator` (train.py
lines 489–503): for every anchor video file, select `num_distractors`
distractors through the re-draw loop and collect the
`(video_file_1, video_file_2)` streamer seeds.  `none` means some selection
loop failed to terminate within `fuel` iterations — taking all `fuel`, this
models `data_generator` never returning. -/
def data_generator_seeds (video_files : List (List Char)) (num_distractors : ℕ)
    (pick : ℕ → ℕ → ℕ → ℕ) (fuel : ℕ) :
    Option (List (List Char × List Char)) :=
  (List.range video_files.length).foldr (fun a acc => do
    let s ← seedsForAnchor video_files (video_files.getD a []) (pick a)
      fuel num_distractors
    let r ← acc
    pure (s ++ r)) (some [])

/-! ## Helper lemmas about peaks -/

theorem rowPeak_nonneg (row : List ℚ) : 0 ≤ rowPeak row := by
  induction row with
  | nil => simp [rowPeak]
  | cons x xs ih =>
    simp only [rowPeak, List.foldr_cons] at *
    exact le_max_of_le_right ih

theorem peakAbs_nonneg (a : List (List ℚ)) : 0 ≤ peakAbs a := by
  induction a with
  | nil => simp [peakAbs]
  | cons r rs ih =>
    simp only [peakAbs, List.foldr_cons] at *
    exact le_max_of_le_right ih

theorem abs_le_rowPeak (row : List ℚ) (x : ℚ) (hx : x ∈ row) : |x| ≤ rowPeak row := by
  induction row with
  | nil => cases hx
  | cons y ys ih =>
    simp only [rowPeak, List.foldr_cons]
    rcases List.mem_cons.mp hx with h | h
    · subst h; exact le_max_left _ _
    · exact le_max_of_le_right (ih h)

theorem rowPeak_le_peakAbs (a : List (List ℚ)) (row : List ℚ) (hr : row ∈ a) :
    rowPeak row ≤ peakAbs a := by
  induction a with
  | nil => cases hr
  | cons r rs ih =>
    simp only [peakAbs, List.foldr_cons]
    rcases List.mem_cons.mp hr with h | h
    · subst h; exact le_max_left _ _
    · exact le_max_of_le_right (ih h)

theorem rowPeak_le_of_forall (row : List ℚ) (c : ℚ) (hc : 0 ≤ c)
    (h : ∀ x ∈ row, |x| ≤ c) : rowPeak row ≤ c := by
  induction row with
  | nil => simpa [rowPeak] using hc
  | cons x xs ih =>
    simp only [rowPeak, List.foldr_cons]
    exact max_le (h x (by simp)) (ih (fun y hy => h y (by simp [hy])))

theorem peakAbs_le_of_forall (a : List (List ℚ)) (c : ℚ) (hc : 0 ≤ c)
    (h : ∀ row ∈ a, rowPeak row ≤ c) : peakAbs a ≤ c := by
  induction a with
  | nil => simpa [peakAbs] using hc
  | cons r rs ih =>
    simp only [peakAbs, List.foldr_cons]
    exact max_le (h r (by simp)) (ih (fun s hs => h s (by simp [hs])))

theorem rowPeak_replicate_zero (nc : ℕ) : rowPeak (List.replicate nc 0) = 0 := by
  induction nc with
  | zero => simp [rowPeak]
  | succ n ih => simp [List.replicate_succ, rowPeak, List.foldr_cons] at *; simp [ih]

/-! ## C6: `video_to_audio` round trip -/

/-- Claim C6 (confirmed): `video_to_audio` is a pure function of its path
argument (it is a Lean function of `video_file` alone), and on every path of
the form `dirs…/video/name.ext` — directory names, stem and extension free
of `'/'`, stem free of `'.'` — it returns `dirs…/audio/name.flac`: the
leading directories are kept, the directory segment immediately above the
file is replaced by `audio`, and the extension is replaced by `.flac`. -/
theorem video_to_audio_round_trip (dirs : List (List Char)) (name ext : List Char)
    (hdirs : ∀ d ∈ dirs, '/' ∉ d) (hname : '/' ∉ name) (hext : '/' ∉ ext)
    (hdot : '.' ∉ name) :
    video_to_audio (pyJoin '/' (dirs ++ ["video".toList, name ++ '.' :: ext])) =
      pyJoin '/' (dirs ++ ["audio".toList, name ++ ".flac".toList]) := by
  have hsegs : ∀ s ∈ dirs ++ ["video".toList, name ++ '.' :: ext], '/' ∉ s := by
    intro s hs
    rcases List.mem_append.mp hs with h | h
    · exact hdirs s h
    · rcases List.mem_cons.mp h with h | h
      · subst h; decide
      · rw [List.mem_singleton] at h
        subst h
        intro hmem
        rcases List.mem_append.mp hmem with h2 | h2
        · exact hname h2
        · rcases List.mem_cons.mp h2 with h3 | h3
          · cases h3
          · exact hext h3
  have hsplit := pySplit_pyJoin '/' (dirs ++ ["video".toList, name ++ '.' :: ext])
    (by simp) hsegs
  have h3 : pySplit '.' (name ++ '.' :: ext) = name :: pySplit '.' ext :=
    pySplit_append_cons '.' name ext hdot
  simp only [video_to_audio, hsplit]
  simp only [show (dirs ++ ["video".toList, name ++ '.' :: ext]).dropLast.dropLast
      = dirs by simp,
    show (dirs ++ ["video".toList, name ++ '.' :: ext]).getLastD []
      = name ++ '.' :: ext by simp, h3, List.headD_cons]
  have : ('.' :: "flac".toList) = ".flac".toList := by decide
  rw [this]

/-- Witness for C6 at the concrete path `a/b/video/clip.mp4`. -/
theorem video_to_audio_round_trip_witness :
    (∀ d ∈ [['a'], ['b']], '/' ∉ d) ∧ '/' ∉ "clip".toList ∧ '/' ∉ "mp4".toList ∧
    '.' ∉ "clip".toList ∧
    video_to_audio (pyJoin '/' ([['a'], ['b']] ++
        ["video".toList, "clip".toList ++ '.' :: "mp4".toList])) =
      pyJoin '/' ([['a'], ['b']] ++ ["audio".toList, "clip".toList ++ ".flac".toList]) :=
  ⟨by decide, by decide, by decide, by decide,
    video_to_audio_round_trip [['a'], ['b']] "clip".toList "mp4".toList
      (by decide) (by decide) (by decide) (by decide)⟩

/-! ## C2: sequential-override filter semantics -/

theorem bool_override (b c acc aRest : Bool) :
    ((if b = c then false else acc) && aRest) = (acc && (!(b == c) && aRest)) := by
  cases b <;> cases c <;> cases acc <;> cases aRest <;> rfl

/-- Unfolding one well-typed rule of the filter loop. -/
theorem filter_accept_loop_cons_wt (ytid : List Char)
    (video_labels : List (List Char)) (f : FilterRule) (fs : List FilterRule)
    (prev : Option Bool) (acc : Bool) (ht : ruleWellTyped f) :
    filter_accept_loop ytid video_labels (f :: fs) prev acc =
      filter_accept_loop ytid video_labels fs (some (ruleMatch ytid video_labels f))
        (if ruleMatch ytid video_labels f = rulePolarity f then false else acc) := by
  rcases ht with ht | ht
  · simp [filter_accept_loop, ruleMatch, rulePolarity, ht]
  · have hy : ¬(f.filter_type = "ytid".toList) := by rw [ht]; decide
    simp [filter_accept_loop, ruleMatch, rulePolarity, ht, hy]

/-- The loop only ever lowers `accept`: its result is the incoming `accept`
conjoined with "no rule's match result equals its polarity test". -/
theorem filter_accept_loop_characterization (ytid : List Char)
    (video_labels : List (List Char)) (rules : List FilterRule)
    (prev : Option Bool) (acc : Bool)
    (hwf : ∀ f ∈ rules, ruleWellTyped f) :
    filter_accept_loop ytid video_labels rules prev acc =
      some (acc && rules.all
        (fun f => !(ruleMatch ytid video_labels f == rulePolarity f))) := by
  induction rules generalizing prev acc with
  | nil => simp [filter_accept_loop]
  | cons f fs ih =>
    have hf := hwf f (by simp)
    have hfs : ∀ g ∈ fs, ruleWellTyped g := fun g hg => hwf g (by simp [hg])
    rw [filter_accept_loop_cons_wt ytid video_labels f fs prev acc hf, ih _ _ hfs,
      List.all_cons, bool_override]

/-- Claim C2 (confirmed): the filter list is evaluated with sequential-override
semantics — `accept` starts `true`; each rule whose match result (ytid
equality for `ytid` rules, lower-cased label membership for `label` rules)
equals its polarity test `accept_reject == "accept"` forces `accept` to
`false`; the final value decides inclusion, so a filename survives iff no
rule's match equals its polarity.  In particular, for the rule list
`[{label, "speech", accept}, {label, "music", reject}]` and a clip whose
label set is `{"speech", "music"}`, the loop returns `false`: the clip is
excluded. -/
theorem filter_sequential_override :
    (∀ (ytid : List Char) (video_labels : List (List Char))
      (rules : List FilterRule), (∀ f ∈ rules, ruleWellTyped f) →
      filter_accept_loop ytid video_labels rules none true =
        some (rules.all
          (fun f => !(ruleMatch ytid video_labels f == rulePolarity f)))) ∧
    filter_accept_loop "x".toList ["speech".toList, "music".toList]
      [⟨"label".toList, "accept".toList, "speech".toList⟩,
       ⟨"label".toList, "reject".toList, "music".toList⟩] none true = some false := by
  constructor
  · intro ytid video_labels rules hwf
    rw [filter_accept_loop_characterization ytid video_labels rules none true hwf]
    simp
  · decide

/-- Witness for C2: the general part applied to the concrete speech/music
rule list. -/
theorem filter_sequential_override_witness :
    (∀ f ∈ [(⟨"label".toList, "accept".toList, "speech".toList⟩ : FilterRule),
        ⟨"label".toList, "reject".toList, "music".toList⟩], ruleWellTyped f) ∧
    filter_accept_loop "x".toList ["speech".toList, "music".toList]
      [⟨"label".toList, "accept".toList, "speech".toList⟩,
       ⟨"label".toList, "reject".toList, "music".toList⟩] none true =
      some ([(⟨"label".toList, "accept".toList, "speech".toList⟩ : FilterRule),
        ⟨"label".toList, "reject".toList, "music".toList⟩].all
          (fun f => !(ruleMatch "x".toList ["speech".toList, "music".toList] f
            == rulePolarity f))) :=
  ⟨by decide, filter_sequential_override.1 "x".toList
    ["speech".toList, "music".toList] _ (by decide)⟩

/-! ## C3/C4: `sample_one_second` window and gain facts -/

theorem headD_replicate_pos {α : Type} (n : ℕ) (hn : 0 < n) (x d : α) :
    (List.replicate n x).headD d = x := by
  cases n with
  | zero => omega
  | succ m => simp [List.replicate_succ]

/-- Unfolding of `sample_one_second` in the augmented case. -/
theorem sample_one_second_true_eq (audio_data : List (List ℚ))
    (sf start_draw : ℕ) (u : ℚ) :
    sample_one_second audio_data sf true start_draw u =
      (let start := if audio_data.length > sf then start_draw else 0
       let window := (audio_data.drop start).take sf
       let nc := (audio_data.headD []).length
       let padded := if window.length ≠ sf then
           window ++ List.replicate (sf - window.length) (List.replicate nc 0)
         else window
       let gain := 1 + (-(1/10) + ((if peakAbs padded ≠ 0 then
           min (1/10) (1/peakAbs padded - 1) else 1/10) - -(1/10)) * u)
       (padded.map (List.map (fun x => x * gain)), (start : ℚ) / sf,
         ⟨some gain⟩)) := rfl

/-- The sliced window's rows all come from the input audio. -/
theorem peakAbs_window_le (audio_data : List (List ℚ)) (s n : ℕ) :
    peakAbs ((audio_data.drop s).take n) ≤ peakAbs audio_data := by
  apply peakAbs_le_of_forall _ _ (peakAbs_nonneg _)
  intro row hr
  exact rowPeak_le_peakAbs _ _ (List.drop_subset _ _ (List.take_subset _ _ hr))

/-- Zero-padding cannot raise the peak above the input audio's peak. -/
theorem peakAbs_window_pad_le (audio_data : List (List ℚ)) (s n k nc : ℕ) :
    peakAbs (((audio_data.drop s).take n) ++
      List.replicate k (List.replicate nc 0)) ≤ peakAbs audio_data := by
  apply peakAbs_le_of_forall _ _ (peakAbs_nonneg _)
  intro row hr
  rcases List.mem_append.mp hr with h | h
  · exact rowPeak_le_peakAbs _ _ (List.drop_subset _ _ (List.take_subset _ _ h))
  · rw [List.eq_of_mem_replicate h, rowPeak_replicate_zero]
    exact peakAbs_nonneg _

/-- Pure arithmetic: bounds on the augmentation gain when the peak `p` is
positive and at most `10/9`. -/
theorem gain_bounds (p u : ℚ) (hu0 : 0 ≤ u) (hu1 : u ≤ 1) (hp : 0 < p)
    (hb : p ≤ 10/9) :
    0 ≤ 1 + (-(1/10) + (min (1/10) (1/p - 1) - -(1/10)) * u) ∧
    (1 + (-(1/10) + (min (1/10) (1/p - 1) - -(1/10)) * u)) * p ≤ 1 := by
  have hinv : 9/10 ≤ 1/p := by
    rw [le_div_iff₀ hp]
    linarith
  have hmg_lb : -(1/10) ≤ min (1/10) (1/p - 1) := by
    apply le_min
    · norm_num
    · linarith
  have hmg_ub : min (1/10) (1/p - 1) ≤ 1/p - 1 := min_le_right _ _
  have hprod0 : 0 ≤ (min (1/10) (1/p - 1) - -(1/10)) * u :=
    mul_nonneg (by linarith) hu0
  have hup : (min (1/10) (1/p - 1) - -(1/10)) * u ≤
      (min (1/10) (1/p - 1) - -(1/10)) * 1 :=
    mul_le_mul_of_nonneg_left hu1 (by linarith)
  constructor
  · linarith
  · have hgub : 1 + (-(1/10) + (min (1/10) (1/p - 1) - -(1/10)) * u) ≤ 1/p := by
      linarith
    calc (1 + (-(1/10) + (min (1/10) (1/p - 1) - -(1/10)) * u)) * p
        ≤ (1/p) * p := mul_le_mul_of_nonneg_right hgub (le_of_lt hp)
      _ = 1 := by field_simp

/-- A nonnegative gain `g` with `g * peak ≤ 1` keeps every scaled entry in
`[-1, 1]`. -/
theorem map_gain_peak_le_one (padded : List (List ℚ)) (g : ℚ)
    (hg0 : 0 ≤ g) (hgp : g * peakAbs padded ≤ 1) :
    peakAbs (padded.map (List.map (fun x => x * g))) ≤ 1 := by
  apply peakAbs_le_of_forall _ _ (by norm_num)
  intro row hr
  rcases List.mem_map.mp hr with ⟨row0, hrow0, rfl⟩
  apply rowPeak_le_of_forall _ _ (by norm_num)
  intro y hy
  rcases List.mem_map.mp hy with ⟨x0, hx0, rfl⟩
  have hxb : |x0| ≤ peakAbs padded :=
    le_trans (abs_le_rowPeak _ _ hx0) (rowPeak_le_peakAbs _ _ hrow0)
  have habs : |x0 * g| = |x0| * g := by rw [abs_mul, abs_of_nonneg hg0]
  rw [habs]
  calc |x0| * g ≤ peakAbs padded * g :=
        mul_le_mul_of_nonneg_right hxb hg0
    _ = g * peakAbs padded := mul_comm _ _
    _ ≤ 1 := hgp

/-- Core gain bound: applying the clip-guarded gain to an array whose peak
is at most `10/9` keeps the peak at most `1`. -/
theorem gain_output_peak_le_one (padded : List (List ℚ)) (u : ℚ)
    (hu0 : 0 ≤ u) (hu1 : u ≤ 1) (hb : peakAbs padded ≤ 10/9) :
    peakAbs (padded.map (List.map (fun x => x *
      (1 + (-(1/10) + ((if peakAbs padded ≠ 0 then
        min (1/10) (1/peakAbs padded - 1) else 1/10) - -(1/10)) * u))))) ≤ 1 := by
  by_cases hz : peakAbs padded = 0
  · simp only [if_neg (not_not_intro hz)]
    apply map_gain_peak_le_one
    · linarith
    · rw [hz, mul_zero]
      norm_num
  · simp only [if_pos hz]
    have hppos : 0 < peakAbs padded :=
      lt_of_le_of_ne (peakAbs_nonneg _) (Ne.symm hz)
    obtain ⟨h0, h1⟩ := gain_bounds (peakAbs padded) u hu0 hu1 hppos hb
    exact map_gain_peak_le_one _ _ h0 h1

/-- Claim C3 (amended): under `augment`, for audio whose peak absolute
amplitude is nonzero and at most `10/9` (in particular any normalised
signal with peak ≤ 1), the applied gain never pushes the output peak above
`1.0`.  (For peaks above `10/9` the claim fails: see the counterexample.) -/
theorem sample_one_second_gain_no_clip (audio_data : List (List ℚ))
    (sampling_frequency start_draw : ℕ) (u : ℚ)
    (hu0 : 0 ≤ u) (hu1 : u ≤ 1) (hnz : peakAbs audio_data ≠ 0)
    (hb : peakAbs audio_data ≤ 10/9) :
    peakAbs (sample_one_second audio_data sampling_frequency true start_draw u).1
      ≤ 1 := by
  rw [sample_one_second_true_eq]
  show peakAbs (List.map _ _) ≤ 1
  apply gain_output_peak_le_one _ u hu0 hu1
  split_ifs <;>
    first
      | exact le_trans (peakAbs_window_pad_le _ _ _ _ _) hb
      | exact le_trans (peakAbs_window_le _ _ _) hb

/-- Witness for the amended C3 at a concrete normalised input. -/
theorem sample_one_second_gain_no_clip_witness :
    (0:ℚ) ≤ 1/2 ∧ (1/2:ℚ) ≤ 1 ∧ peakAbs [[(1:ℚ)]] ≠ 0 ∧
    peakAbs [[(1:ℚ)]] ≤ 10/9 ∧
    peakAbs (sample_one_second [[(1:ℚ)]] 1 true 0 (1/2)).1 ≤ 1 :=
  ⟨by norm_num, by norm_num, by norm_num [peakAbs, rowPeak],
   by norm_num [peakAbs, rowPeak],
   sample_one_second_gain_no_clip [[(1:ℚ)]] 1 0 (1/2) (by norm_num) (by norm_num)
     (by norm_num [peakAbs, rowPeak]) (by norm_num [peakAbs, rowPeak])⟩

/-- Claim C3 counterexample: the claim as stated — no hypothesis on the peak
beyond being nonzero — is false.  For the one-sample input `[[2]]` (peak 2)
and gain draw `u = 0`, `random.uniform(-0.1, max_gain)` with
`max_gain = min(0.1, 1/2 - 1) = -0.5 < -0.1` yields gain `0.9`, and the
output peak is `1.8 > 1`. -/
theorem sample_one_second_gain_clips_counterexample :
    peakAbs [[(2:ℚ)]] ≠ 0 ∧
    peakAbs (sample_one_second [[(2:ℚ)]] 1 true 0 0).1 = 9/5 ∧
    ¬(peakAbs (sample_one_second [[(2:ℚ)]] 1 true 0 0).1 ≤ 1) := by
  refine ⟨by norm_num [peakAbs, rowPeak], ?_, ?_⟩ <;>
  · rw [sample_one_second_true_eq]
    norm_num [peakAbs, rowPeak, abs_of_nonneg]

/-- Claim C4 (confirmed): every window returned by `sample_one_second` has
exactly `sampling_frequency` frames — a longer track is sliced at the drawn
start offset, a shorter one is zero-padded at the tail — and in particular a
0.4 s clip at 16 kHz (6400 one-channel frames) yields a 16000-frame window
whose trailing 9600 frames are zero and whose start time is 0. -/
theorem sample_one_second_window_length :
    (∀ (audio_data : List (List ℚ)) (sf : ℕ) (augment : Bool)
      (start_draw : ℕ) (u : ℚ),
      ((sample_one_second audio_data sf augment start_draw u).1).length = sf) ∧
    (sample_one_second (List.replicate 6400 [(1:ℚ)]) 16000 false 0 0).1 =
      List.replicate 6400 [(1:ℚ)] ++ List.replicate 9600 [(0:ℚ)] ∧
    ((sample_one_second (List.replicate 6400 [(1:ℚ)]) 16000 false 0 0).1).drop 6400 =
      List.replicate 9600 [(0:ℚ)] ∧
    (sample_one_second (List.replicate 6400 [(1:ℚ)]) 16000 false 0 0).2.1 = 0 := by
  have hgen : ∀ (audio_data : List (List ℚ)) (sf : ℕ) (augment : Bool)
      (start_draw : ℕ) (u : ℚ),
      ((sample_one_second audio_data sf augment start_draw u).1).length = sf := by
    intro audio_data sf augment start_draw u
    have hwl : ∀ s : ℕ, ((audio_data.drop s).take sf).length ≤ sf := by
      intro s
      simp [List.length_take]
    cases augment <;>
    · simp only [sample_one_second]
      split_ifs <;>
        simp_all [List.length_append, List.length_replicate, List.length_map] <;>
        omega
  have hconc : (sample_one_second (List.replicate 6400 [(1:ℚ)]) 16000 false 0 0).1 =
      List.replicate 6400 [(1:ℚ)] ++ List.replicate 9600 [(0:ℚ)] := by
    have hh : ((List.replicate 6400 [(1:ℚ)]).head?.getD []) = [(1:ℚ)] := by
      rw [show (6400:ℕ) = 6399 + 1 from rfl, List.replicate_succ]
      rfl
    simp only [sample_one_second]
    norm_num [List.take_replicate, hh]
  refine ⟨hgen, hconc, ?_, ?_⟩
  · rw [hconc]
    have := List.drop_left (List.replicate 6400 [(1:ℚ)]) (List.replicate 9600 [(0:ℚ)])
    rwa [List.length_replicate] at this
  · simp only [sample_one_second]
    norm_num

/-! ## C1: the correspondence label is inverted -/

/-- Claim C1 (code bug): the claim — and the `sampler` docstring, "label (0:
not from corresponding files, 1: from corresponding files)" — says the
one-hot is `[1, 0]` exactly when `video_choice == audio_choice`.  The code
computes `label = int(video_choice != audio_choice)`, so in the
correspondence case `video_choice = audio_choice = True` it emits
`[0, 1]`, not `[1, 0]`; a full draw from a sampler state in which both
choices select file 1 carries label `[0, 1]`. -/
theorem sampler_label_inverted_bug :
    samplerLabelOneHot true true = [0, 1] ∧
    samplerLabelOneHot true true ≠ [1, 0] ∧
    (samplerDraw ⟨"v1".toList, "v2".toList, "a1".toList, "a2".toList,
        [List.replicate 225 (List.replicate 225 [(1:ℚ)])],
        [List.replicate 225 (List.replicate 225 [(1:ℚ)])],
        [[(1:ℚ)]], [[(1:ℚ)]], 1⟩ false
        ⟨0, 0, 0, 0, 0, 0, 0, 1, 1, 1, 1⟩).map Sample.label = .ok [0, 1] := by
  refine ⟨by decide, by decide, ?_⟩
  have h12 : ((0:ℚ) < 1/2) := by norm_num
  simp only [samplerDraw, sample_one_second, sample_one_frame, sample_cropped_frame,
    decide_eq_true h12]
  norm_num [samplerLabel, Except.map, Except.bind, bind]

/-! ## C5: decode failure aborts the stream before any sample -/

/-- Claim C5 (confirmed): if any of the four decodes of a `sampler` stream
(either video file, or either derived audio file) fails, initialisation
stops at that `try` block with a warning-carrying stream-termination error,
so the stream yields zero samples; and the (spec-modelled, external)
multiplexer output over such a failed stream equals the output over the
remaining streams — the failure is never fatal to the pipeline. -/
theorem sampler_decode_failure_zero_samples
    (video_file_1 video_file_2 : List Char)
    (vread : List Char → Option (List VFrame))
    (sfread : List Char → Option (List (List ℚ) × ℕ))
    (augment : Bool) (draws : ℕ → DrawRand) (fuel : ℕ)
    (rest : List (List (Except (List Char) Sample)))
    (hfail : vread video_file_1 = none ∨ vread video_file_2 = none ∨
      sfread (video_to_audio video_file_1) = none ∨
      sfread (video_to_audio video_file_2) = none) :
    (∃ w, samplerInit video_file_1 video_file_2 vread sfread = .error w) ∧
    samplerSamples video_file_1 video_file_2 vread sfread augment draws fuel = [] ∧
    muxStreams (samplerSamples video_file_1 video_file_2 vread sfread augment
      draws fuel :: rest) = muxStreams rest := by
  have hinit : ∃ w, samplerInit video_file_1 video_file_2 vread sfread = .error w := by
    unfold samplerInit
    rcases hfail with h | h | h | h
    · simp [h]
    · cases h1 : vread video_file_1 <;> simp [h]
    · cases h1 : vread video_file_1 <;> cases h2 : vread video_file_2 <;> simp [h]
    · cases h1 : vread video_file_1 <;> cases h2 : vread video_file_2 <;>
        rcases h3 : sfread (video_to_audio video_file_1) with _ | ⟨a1, sf1⟩ <;>
        simp [h, h3]
  obtain ⟨w, hw⟩ := hinit
  have hsamp : samplerSamples video_file_1 video_file_2 vread sfread augment
      draws fuel = [] := by
    unfold samplerSamples
    rw [hw]
  refine ⟨⟨w, hw⟩, hsamp, ?_⟩
  rw [hsamp]
  simp [muxStreams]

/-- Witness for C5: all decodes fail. -/
theorem sampler_decode_failure_zero_samples_witness :
    (fun _ : List Char => (none : Option (List VFrame))) "v1".toList = none ∧
    ((∃ w, samplerInit "v1".toList "v2".toList (fun _ => none) (fun _ => none) =
        .error w) ∧
     samplerSamples "v1".toList "v2".toList (fun _ => none) (fun _ => none) false
        (fun _ => ⟨0, 0, 0, 0, 0, 0, 0, 0, 0, 0, 0⟩) 3 = [] ∧
     muxStreams (samplerSamples "v1".toList "v2".toList (fun _ => none)
        (fun _ => none) false (fun _ => ⟨0, 0, 0, 0, 0, 0, 0, 0, 0, 0, 0⟩) 3 ::
          [[]]) = muxStreams [[]]) :=
  ⟨rfl, sampler_decode_failure_zero_samples "v1".toList "v2".toList
    (fun _ => none) (fun _ => none) false
    (fun _ => ⟨0, 0, 0, 0, 0, 0, 0, 0, 0, 0, 0⟩) 3 [[]] (Or.inl rfl)⟩

/-! ## C7: missing ontology path -/

/-- Claim C7 (amended): when `metadata_path` and `filter_path` are given but
`ontology_path` is absent, `get_file_list` fails with the configuration
error "Must provide ontology path to filter", and at that point only
directory-scanning work (listdir/glob) has been performed — no metadata,
filter, or ontology loading and no filtering.  (The error is *not* raised
before the directory scan: see the counterexample.) -/
theorem get_file_list_missing_ontology_error (fs : FileSystem)
    (data_dir : List Char) (metadata_path filter_path : Option (List Char))
    (hmp : pyTruthy metadata_path = true) (hfp : pyTruthy filter_path = true) :
    (get_file_list fs data_dir metadata_path filter_path none).2 =
      .error "Must provide ontology path to filter".toList ∧
    ∀ e ∈ (get_file_list fs data_dir metadata_path filter_path none).1,
      e.isScan = true := by
  have heq : ∃ p1 p2, get_file_list fs data_dir metadata_path filter_path none =
      ([FsEvent.listdir data_dir, FsEvent.glob p1, FsEvent.glob p2],
       .error "Must provide ontology path to filter".toList) := by
    unfold get_file_list
    rw [hmp, hfp]
    exact ⟨_, _, rfl⟩
  obtain ⟨p1, p2, heq⟩ := heq
  rw [heq]
  constructor
  · rfl
  · intro e he
    rcases List.mem_cons.mp he with h | h
    · subst h; rfl
    · rcases List.mem_cons.mp h with h2 | h2
      · subst h2; rfl
      · rw [List.mem_singleton] at h2
        subst h2; rfl

/-- Claim C7 counterexample: the directory scan (an `os.listdir` event and two
`glob` events) happens *before* the missing-ontology error is raised, so the
error is not "raised before any work begins / before any directory
scanning". -/
theorem get_file_list_scans_before_ontology_error :
    (get_file_list ⟨fun _ => [], fun _ => [], fun _ => [], fun _ => [],
        fun _ _ => []⟩ "d".toList (some "m".toList) (some "f".toList) none).2 =
      .error "Must provide ontology path to filter".toList ∧
    FsEvent.listdir "d".toList ∈
      (get_file_list ⟨fun _ => [], fun _ => [], fun _ => [], fun _ => [],
        fun _ _ => []⟩ "d".toList (some "m".toList) (some "f".toList) none).1 ∧
    FsEvent.glob ("d".toList ++ "/**/audio/*".toList) ∈
      (get_file_list ⟨fun _ => [], fun _ => [], fun _ => [], fun _ => [],
        fun _ _ => []⟩ "d".toList (some "m".toList) (some "f".toList) none).1 := by
  refine ⟨rfl, ?_, ?_⟩ <;> decide

/-- Witness for C7 at a concrete filesystem. -/
theorem get_file_list_missing_ontology_error_witness :
    pyTruthy (some "m".toList) = true ∧
    ((get_file_list ⟨fun _ => [], fun _ => [], fun _ => [], fun _ => [],
        fun _ _ => []⟩ "d".toList (some "m".toList) (some "f".toList) none).2 =
      .error "Must provide ontology path to filter".toList ∧
     ∀ e ∈ (get_file_list ⟨fun _ => [], fun _ => [], fun _ => [], fun _ => [],
        fun _ _ => []⟩ "d".toList (some "m".toList) (some "f".toList) none).1,
      e.isScan = true) :=
  ⟨rfl, get_file_list_missing_ontology_error _ "d".toList (some "m".toList)
    (some "f".toList) rfl rfl⟩

/-! ## C8: the jitter-order coin is not recorded -/

/-- Under `augment` (and the sampler's `rescale=False` path) the returned
augmentation parameters are exactly the bounding box, the flip flag, the
saturation factor and the brightness delta — whatever the order coin
`order_u` was. -/
theorem sample_one_frame_params_eq (video_data : List VFrame)
    (start : Option ℚ) (fps : ℕ) (frame_draw sx sy : ℕ)
    (flip_u order_u sat_u bright_u : ℚ) :
    (sample_one_frame video_data start fps true false frame_draw sx sy
      flip_u order_u sat_u bright_u).map (fun r => r.2.2) =
      .ok ⟨⟨sx, sy, sx + 224, sy + 224⟩,
        some (if flip_u < 1/2 then true else false),
        some (sat_u + 1/2), some ((2 * bright_u - 1) * (32 / 255))⟩ := by
  unfold sample_one_frame sample_cropped_frame
  by_cases hf : flip_u < (2⁻¹ : ℚ) <;> by_cases ho : order_u < (2⁻¹ : ℚ) <;>
    simp [hf, ho, Except.map, Except.bind, bind]

/-- Claim C8 (amended): the order of brightness and saturation jitter is
randomised per draw (by the `order_u` coin), but the realised order is *not*
recorded: the augmentation-parameter provenance carries exactly the bounding
box, `horizontal_flip`, `saturation_factor` and `brightness_delta`, and is
identical for both realised orders. -/
theorem sample_one_frame_aug_params_no_order (video_data : List VFrame)
    (start : Option ℚ) (fps : ℕ) (frame_draw sx sy : ℕ)
    (flip_u order_u order_u' sat_u bright_u : ℚ) :
    (sample_one_frame video_data start fps true false frame_draw sx sy
      flip_u order_u sat_u bright_u).map (fun r => r.2.2) =
      .ok ⟨⟨sx, sy, sx + 224, sy + 224⟩,
        some (if flip_u < 1/2 then true else false),
        some (sat_u + 1/2), some ((2 * bright_u - 1) * (32 / 255))⟩ ∧
    (sample_one_frame video_data start fps true false frame_draw sx sy
      flip_u order_u sat_u bright_u).map (fun r => r.2.2) =
    (sample_one_frame video_data start fps true false frame_draw sx sy
      flip_u order_u' sat_u bright_u).map (fun r => r.2.2) :=
  ⟨sample_one_frame_params_eq video_data start fps frame_draw sx sy
      flip_u order_u sat_u bright_u,
   (sample_one_frame_params_eq video_data start fps frame_draw sx sy
      flip_u order_u sat_u bright_u).trans
     (sample_one_frame_params_eq video_data start fps frame_draw sx sy
      flip_u order_u' sat_u bright_u).symm⟩

/-- Claim C8 counterexample: two draws that differ only in the realised
jitter order (`order_u = 0`: saturation before brightness; `order_u = 1`:
brightness before saturation) return *identical* augmentation-parameter
provenance, while their output frames differ (top-left channel value
`1·1.5 + 32/255` versus `(1 + 32/255)·1.5`) — so the realised order is not
recorded in the provenance. -/
theorem sample_one_frame_order_not_recorded :
    ((sample_one_frame [List.replicate 225 (List.replicate 225 [(1:ℚ)])] none 30
        true false 0 0 0 1 0 1 1).map (fun r => r.2.2) =
     (sample_one_frame [List.replicate 225 (List.replicate 225 [(1:ℚ)])] none 30
        true false 0 0 0 1 1 1 1).map (fun r => r.2.2)) ∧
    ((sample_one_frame [List.replicate 225 (List.replicate 225 [(1:ℚ)])] none 30
        true false 0 0 0 1 0 1 1).map
          (fun r => ((r.1.headD []).headD []).headD 0) = .ok (3/2 + 32/255)) ∧
    ((sample_one_frame [List.replicate 225 (List.replicate 225 [(1:ℚ)])] none 30
        true false 0 0 0 1 1 1 1).map
          (fun r => ((r.1.headD []).headD []).headD 0) =
            .ok ((1 + 32/255) * (3/2))) ∧
    (3/2 + 32/255 : ℚ) ≠ (1 + 32/255) * (3/2) := by
  refine ⟨(sample_one_frame_params_eq _ _ _ _ _ _ _ _ _ _).trans
    (sample_one_frame_params_eq _ _ _ _ _ _ _ _ _ _).symm, ?_, ?_, by norm_num⟩
  all_goals
    have h1 : ¬((1:ℚ) < 2⁻¹) := by norm_num
    have h0 : ((0:ℚ) < 2⁻¹) := by norm_num
    simp [sample_one_frame, sample_cropped_frame, adjust_brightness, adjust_saturation,
      h1, h0, Except.map, Except.bind, bind, List.take_replicate, List.map_replicate]
    norm_num

/-! ## C9: rescale-then-crop always yields 224×224×3 -/

/-- In exact arithmetic, rescaling a dimension `n ≥ m` by `256/m` (with
`m ≥ 1`) and taking the ceiling yields at least 256. -/
theorem le_ceil_dim (m n : ℕ) (hm : 1 ≤ m) (hmn : m ≤ n) :
    256 ≤ (⌈(256 / (m : ℚ)) * (n : ℚ)⌉).toNat := by
  have hm0 : (0:ℚ) < m := by exact_mod_cast hm
  have hcast : (m:ℚ) ≤ (n:ℚ) := by exact_mod_cast hmn
  have h1 : (256:ℚ) ≤ 256 / m * n := by
    rw [div_mul_eq_mul_div, le_div_iff₀ hm0]
    nlinarith
  have h2 : (256:ℤ) ≤ ⌈(256 / (m:ℚ)) * n⌉ :=
    calc (256:ℤ) = ⌈(256:ℚ)⌉ := by norm_num
      _ ≤ ⌈256 / (m:ℚ) * n⌉ := Int.ceil_le_ceil h1
  calc (256:ℕ) = (256:ℤ).toNat := rfl
    _ ≤ (⌈(256 / (m:ℚ)) * n⌉).toNat := Int.toNat_le_toNat h2

/-- Cropping a rectangular `nX × nY × nC` frame at a valid offset yields a
`224 × 224 × nC` frame with the recorded bounding box. -/
theorem crop_replicate_shape (nX nY nC sx sy : ℕ)
    (hx : sx + 224 ≤ nX) (hy : sy + 224 ≤ nY) :
    ∃ cropped, sample_cropped_frame
        (List.replicate nX (List.replicate nY (List.replicate nC 0))) false sx sy =
      .ok (cropped, ⟨sx, sy, sx + 224, sy + 224⟩) ∧
      frameShapeIs cropped 224 224 nC := by
  refine ⟨_, rfl, ?_, ?_⟩
  · simp only [List.length_map, List.length_take, List.length_drop,
      List.length_replicate]
    omega
  · intro row hr
    rcases List.mem_map.mp hr with ⟨row0, hrow0, rfl⟩
    have hrow0' : row0 = List.replicate nY (List.replicate nC 0) :=
      List.eq_of_mem_replicate
        (List.drop_subset _ _ (List.take_subset _ _ hrow0))
    subst hrow0'
    constructor
    · simp only [List.length_take, List.length_drop, List.length_replicate]
      omega
    · intro px hpx
      have hpx' : px = List.replicate nC 0 :=
        List.eq_of_mem_replicate
          (List.drop_subset _ _ (List.take_subset _ _ hpx))
      subst hpx'
      simp

/-- Claim C9 (confirmed): in the sampler path every frame of
`rescale_video`'s output has both spatial dimensions at least 256 (shorter
side exactly 256 in exact arithmetic), and cropping any such frame at a
valid `randrange` offset succeeds and returns a frame of shape exactly
`224 × 224 × 3` together with the recorded bounding box
`(sx, sy, sx+224, sy+224)`. -/
theorem rescale_then_crop_shape (video_data : List VFrame) (sx sy : ℕ)
    (hnx : 1 ≤ (video_data.headD []).length)
    (hny : 1 ≤ ((video_data.headD []).headD []).length)
    (hnc : (((video_data.headD []).headD []).headD []).length = 3)
    (f : VFrame) (hf : f ∈ rescale_video video_data)
    (hsx : sx < f.length - 224) (hsy : sy < (f.headD []).length - 224) :
    256 ≤ f.length ∧ 256 ≤ (f.headD []).length ∧
    ∃ cropped, sample_cropped_frame f false sx sy =
      .ok (cropped, ⟨sx, sy, sx + 224, sy + 224⟩) ∧
      frameShapeIs cropped 224 224 3 := by
  have hm : 1 ≤ min (video_data.headD []).length
      ((video_data.headD []).headD []).length := le_min hnx hny
  have hNX := le_ceil_dim _ (video_data.headD []).length hm (min_le_left _ _)
  have hNY := le_ceil_dim _ ((video_data.headD []).headD []).length hm
    (min_le_right _ _)
  unfold rescale_video at hf
  rcases List.mem_map.mp hf with ⟨f0, hf0, rfl⟩
  rw [imresize, hnc] at hsx hsy ⊢
  rw [List.length_replicate] at hsx ⊢
  have hhead : (List.replicate
      (⌈256 / ((min (video_data.headD []).length
        ((video_data.headD []).headD []).length : ℕ) : ℚ) *
        ((video_data.headD []).length : ℕ)⌉).toNat
      (List.replicate (⌈256 / ((min (video_data.headD []).length
        ((video_data.headD []).headD []).length : ℕ) : ℚ) *
        (((video_data.headD []).headD []).length : ℕ)⌉).toNat
        (List.replicate 3 0))).headD [] =
      List.replicate (⌈256 / ((min (video_data.headD []).length
        ((video_data.headD []).headD []).length : ℕ) : ℚ) *
        (((video_data.headD []).headD []).length : ℕ)⌉).toNat
        (List.replicate 3 (0:ℚ)) :=
    headD_replicate_pos _ (by omega) _ _
  rw [hhead] at hsy ⊢
  rw [List.length_replicate] at hsy ⊢
  refine ⟨hNX, hNY, ?_⟩
  exact crop_replicate_shape _ _ _ sx sy (by omega) (by omega)

/-- A 1×1×3 frame rescales to the concrete 256×256×3 zero frame. -/
theorem rescale_video_concrete_eval : rescale_video [[[[(0:ℚ), 0, 0]]]] =
    [List.replicate 256 (List.replicate 256 (List.replicate 3 (0:ℚ)))] := by
  unfold rescale_video
  norm_num [imresize]
  rfl

/-- Witness for C9 at a concrete 1×1×3 input frame. -/
theorem rescale_then_crop_shape_witness :
    List.replicate 256 (List.replicate 256 (List.replicate 3 (0:ℚ))) ∈
      rescale_video [[[[(0:ℚ), 0, 0]]]] ∧
    (256 ≤ (List.replicate 256 (List.replicate 256 (List.replicate 3 (0:ℚ)))).length ∧
     256 ≤ ((List.replicate 256 (List.replicate 256
        (List.replicate 3 (0:ℚ)))).headD []).length ∧
     ∃ cropped, sample_cropped_frame
        (List.replicate 256 (List.replicate 256 (List.replicate 3 (0:ℚ))))
          false 0 0 =
       .ok (cropped, ⟨0, 0, 0 + 224, 0 + 224⟩) ∧
       frameShapeIs cropped 224 224 3) := by
  have hmem : List.replicate 256 (List.replicate 256 (List.replicate 3 (0:ℚ))) ∈
      rescale_video [[[[(0:ℚ), 0, 0]]]] := by
    rw [rescale_video_concrete_eval]
    exact List.mem_singleton.mpr rfl
  refine ⟨hmem, rescale_then_crop_shape [[[[(0:ℚ), 0, 0]]]] 0 0
    (by decide) (by decide) (by decide) _ hmem ?_ ?_⟩
  · rw [List.length_replicate]
    norm_num
  · rw [headD_replicate_pos _ (by norm_num), List.length_replicate]
    norm_num

/-! ## C10: one distinct video file makes `data_generator` diverge -/

/-- If every element of `video_files` equals the anchor, the re-draw loop
never terminates, for any draw sequence and any iteration bound. -/
theorem pickDistractor_all_same (video_files : List (List Char))
    (video_file_1 : List Char) (pick : ℕ → ℕ)
    (hpick : ∀ i, pick i < video_files.length)
    (hall : ∀ v ∈ video_files, v = video_file_1) :
    ∀ i fuel, pickDistractor video_files video_file_1 pick i fuel = none := by
  intro i fuel
  induction fuel generalizing i with
  | zero => rfl
  | succ n ih =>
    have hmem : video_files.getD (pick i) [] ∈ video_files := by
      rw [List.getD_eq_getElem video_files [] (hpick i)]
      exact List.getElem_mem (hpick i)
    simp only [pickDistractor]
    rw [if_pos (hall _ hmem)]
    exact ih (i + 1)

theorem seedsForAnchor_none (video_files : List (List Char))
    (video_file_1 : List Char) (pick2 : ℕ → ℕ → ℕ) (fuel nd : ℕ)
    (hnd : 1 ≤ nd)
    (hloop : ∀ j i, pickDistractor video_files video_file_1 (pick2 j) i fuel = none) :
    seedsForAnchor video_files video_file_1 pick2 fuel nd = none := by
  cases nd with
  | zero => omega
  | succ j => simp [seedsForAnchor, hloop j 0]

/-- Claim C10 (confirmed): with `num_distractors ≥ 1`, when the discovered
video file list is nonempty but holds only one distinct path (every element
equals the first), the distractor-selection loop
`while video_file_2 == video_file_1: video_file_2 = random.choice(...)`
can never exit — whatever indices `random.choice` draws — so the seed
construction of `data_generator` fails to finish within any iteration bound:
`data_generator` never returns. -/
theorem data_generator_one_distinct_never_returns
    (video_files : List (List Char)) (num_distractors : ℕ)
    (pick : ℕ → ℕ → ℕ → ℕ) (fuel : ℕ)
    (hne : video_files ≠ [])
    (hone : ∀ v ∈ video_files, v = video_files.headD [])
    (hnd : 1 ≤ num_distractors)
    (hpick : ∀ a j i, pick a j i < video_files.length) :
    data_generator_seeds video_files num_distractors pick fuel = none := by
  obtain ⟨v0, vrest, rfl⟩ : ∃ v0 vrest, video_files = v0 :: vrest := by
    cases video_files with
    | nil => exact absurd rfl hne
    | cons a l => exact ⟨a, l, rfl⟩
  unfold data_generator_seeds
  rw [List.length_cons, List.range_succ_eq_map]
  have hanchor : seedsForAnchor (v0 :: vrest) v0
      (pick 0) fuel num_distractors = none := by
    apply seedsForAnchor_none _ _ _ _ _ hnd
    intro j i
    apply pickDistractor_all_same _ _ _ (fun k => hpick 0 j k)
    intro v hv
    simpa using hone v hv
  simp [hanchor]

/-- Witness for C10: a single video file, one distractor, draws always 0. -/
theorem data_generator_one_distinct_never_returns_witness :
    ([['a']] : List (List Char)) ≠ [] ∧
    data_generator_seeds [['a']] 1 (fun _ _ _ => 0) 5 = none :=
  ⟨by decide,
    data_generator_one_distinct_never_returns [['a']] 1 (fun _ _ _ => 0) 5
      (by decide) (by decide) (le_refl 1) (fun _ _ _ => Nat.one_pos)⟩
